import Mathlib

/-!
Verification development for the ffmpeg stderr-diagnostics parser package
(`jhsiao/ffmpeg`).  The definitions below are a shallow embedding of the
Python sources:

  * `jhsiao/ffmpeg/eparse/stream.py`    (stream-line parsing),
  * `jhsiao/ffmpeg/eparse/ffio.py`      (Input/Output block parsing),
  * `jhsiao/ffmpeg/eparse/streammap.py` (Stream-mapping block parsing),
  * `jhsiao/ffmpeg/eparse/blockiter.py` (block segmentation),
  * `jhsiao/ffmpeg/preit.py`            (pushback line source `PreIt`),
  * `jhsiao/ffmpeg/its.py`              (`RewindIt`, used by the driver),
  * `jhsiao/ffmpeg/eparse/eparse.py`    (the protocol driver `FFmpegEParser`),
  * `jhsiao/ffmpeg/retrieve.py`         (`FrameRetriever.frameinfo`).

Lines of diagnostic text are modelled as `String`s (usually terminated by a
newline character, as produced by Python text-mode iteration).  Python regular
expressions are translated into bespoke executable matchers on `List Char`;
each matcher's doc comment quotes the regex it implements and notes how the
regex's greedy/backtracking behaviour is realised.  Python exceptions are
modelled by the `PyErr` error type and `Except`.

The codec and pixel-format vocabularies are obtained by the Python code from
an external `ffmpeg -codecs` / `ffmpeg -pix_fmts` invocation (`info.py`); here
they are parameters (`Vocab`), as the claims assume particular names are in
the vocabulary.
-/

/-- Python's `\s` character class over ASCII: space, tab, newline, carriage
return, vertical tab, form feed. -/
def pySpace (c : Char) : Bool :=
  c = ' ' || c = '\t' || c = '\n' || c = '\r' || c = '\x0b' || c = '\x0c'

/-- Python's `\d` over ASCII. -/
def pyDigit (c : Char) : Bool :=
  '0' ≤ c && c ≤ '9'

/-- Decimal value of a digit run (the `int(...)` conversions in the source). -/
def natOfDigits (ds : List Char) : Nat :=
  ds.foldl (fun acc c => 10 * acc + (c.toNat - '0'.toNat)) 0

/-- Greedy `\d+`: the maximal leading digit run, `none` when it is empty. -/
def digits1 (cs : List Char) : Option (List Char × List Char) :=
  match cs.takeWhile pyDigit with
  | [] => none
  | ds => some (ds, cs.dropWhile pyDigit)

/-- Greedy `\s+`: drop a nonempty maximal leading run of whitespace. -/
def ws1 (cs : List Char) : Option (List Char) :=
  match cs with
  | [] => none
  | c :: _ => if pySpace c then some (cs.dropWhile pySpace) else none

/-- Strip a literal prefix (a literal piece of a regex). -/
def lit : List Char → List Char → Option (List Char)
  | [], cs => some cs
  | _ :: _, [] => none
  | p :: ps, c :: cs => if p = c then lit ps cs else none

/-- `blockiter.py`: `indented = re.compile('^\s+')`, used via `.match`: a line
is indented iff its first character is whitespace. -/
def indentedB (line : String) : Bool :=
  match line.data with
  | [] => false
  | c :: _ => pySpace c

/-!  ## Stream-line parsing (`eparse/stream.py`)  -/

/-- Tail of the stream regex after the optional language tag:
`: (?P<type>\S+): (?P<info>.*)`.  The type capture is the maximal nonspace
run minus its final `:` — backtracking of the greedy `\S+` can only succeed
with the colon as the run's last character, because the literal space after
it cannot match inside a nonspace run.  `info` is everything up to the end
of the line (`.` does not match a newline). -/
def streamTail (cs : List Char) : Option (String × String) :=
  match lit ": ".data cs with
  | none => none
  | some r =>
    let run := r.takeWhile (fun c => !pySpace c)
    let rest := r.dropWhile (fun c => !pySpace c)
    match rest with
    | ' ' :: info =>
      if 2 ≤ run.length && run.getLast? = some ':' then
        some (String.mk run.dropLast, String.mk (info.takeWhile (fun c => c ≠ '\n')))
      else none
    | _ => none

/-- Backtracking for the optional language tag `(?:\(\S+\))?`: `run` is the
maximal nonspace run after the opening parenthesis and the candidate list
holds the positions of `)` inside it, largest (greediest) first; the first
candidate whose continuation parses wins. -/
def tagLoop (run rest : List Char) : List Nat → Option (String × String)
  | [] => none
  | k :: ks =>
    match streamTail (run.drop (k + 1) ++ rest) with
    | some res => some res
    | none => tagLoop run rest ks

/-- `Stream.stream` regex (stream.py):
`\s+Stream #(?P<name>\d+:\d+)(?:\(\S+\))?: (?P<type>\S+): (?P<info>.*)`
used via `.match` (anchored at the start of the line, prefix match).
Returns `(name, type, info)` on success. -/
def streamHead (line : String) : Option (String × String × String) :=
  match ws1 line.data with
  | none => none
  | some r1 =>
  match lit "Stream #".data r1 with
  | none => none
  | some r2 =>
  match digits1 r2 with
  | none => none
  | some (d1, r3) =>
  match r3 with
  | ':' :: r4 =>
    match digits1 r4 with
    | none => none
    | some (d2, r5) =>
      let name := String.mk (d1 ++ ':' :: d2)
      let tailRes :=
        match r5 with
        | '(' :: r6 =>
          let run := r6.takeWhile (fun c => !pySpace c)
          let rest := r6.dropWhile (fun c => !pySpace c)
          let cands :=
            ((List.range run.length).filter
              (fun k => 1 ≤ k && (run.drop k).head? = some ')')).reverse
          match tagLoop run rest cands with
          | some res => some res
          | none => streamTail ('(' :: r6)
        | _ => streamTail r5
      match tailRes with
      | none => none
      | some (tp, info) => some (name, tp, info)
  | _ => none

/-- One `(?:\s*\([^)]+\)|\s*\[[^]]+\])*(?:,|$)` step of the `streaminfo`
field regex: after the initial segment, consume parenthesised/bracketed
groups (each optionally preceded by whitespace) and then require a comma
(kept in the match, as `findall` keeps the whole match) or the end of the
string.  `[^)]+` is realised as everything up to the first closing
parenthesis, nonempty; likewise for brackets. -/
def groupsLoop (fuel : Nat) (acc r : List Char) : Option (List Char × List Char) :=
  let tryEnd : Option (List Char × List Char) :=
    match r with
    | ',' :: rr => some (acc ++ [','], rr)
    | [] => some (acc, [])
    | _ => none
  match fuel with
  | 0 => tryEnd
  | fuel + 1 =>
    let w := r.takeWhile pySpace
    let r1 := r.dropWhile pySpace
    match r1 with
    | '(' :: r2 =>
      let content := r2.takeWhile (fun c => c ≠ ')')
      match r2.dropWhile (fun c => c ≠ ')') with
      | ')' :: r3 =>
        if content.isEmpty then tryEnd
        else groupsLoop fuel (acc ++ w ++ '(' :: (content ++ [')'])) r3
      | _ => tryEnd
    | '[' :: r2 =>
      let content := r2.takeWhile (fun c => c ≠ ']')
      match r2.dropWhile (fun c => c ≠ ']') with
      | ']' :: r3 =>
        if content.isEmpty then tryEnd
        else groupsLoop fuel (acc ++ w ++ '[' :: (content ++ [']'])) r3
      | _ => tryEnd
    | _ => tryEnd

/-- Attempt the `streaminfo` field regex
`\s*[^,([]+(?:\s*\([^)]+\)|\s*\[[^]]+\])*(?:,|$)` at the current position.
Whitespace is one of the characters allowed by `[^,([]`, so the greedy
initial segment (everything up to the first `,`/`(`/`[`) subsumes `\s*`. -/
def fieldMatchAt (cs : List Char) : Option (List Char × List Char) :=
  let notStop : Char → Bool := fun c => !(c = ',' || c = '(' || c = '[')
  match cs.takeWhile notStop with
  | [] => none
  | seg => groupsLoop (cs.length + 1) seg (cs.dropWhile notStop)

/-- `re.findall` with the `streaminfo` regex: scan left to right, collecting
non-overlapping matches; on failure at a position, advance one character. -/
def fieldsOfAux (fuel : Nat) (cs : List Char) (acc : List String) : List String :=
  match fuel with
  | 0 => acc.reverse
  | fuel + 1 =>
    match cs with
    | [] => acc.reverse
    | _ :: tl =>
      match fieldMatchAt cs with
      | some (m, rest) => fieldsOfAux fuel rest (String.mk m :: acc)
      | none => fieldsOfAux fuel tl acc

/-- `info = Stream.streaminfo.findall(info)` (stream.py line 56): split a
stream-info tail into its comma-delimited fields, each field keeping its
leading whitespace, attached groups and trailing comma. -/
def fieldsOf (s : String) : List String :=
  fieldsOfAux (s.data.length + 1) s.data []

/-- The two vocabularies the Python code loads from `ffmpeg -codecs` and
`ffmpeg -pix_fmts` (`info.py`), here supplied as parameters. -/
structure Vocab where
  codecs : List String
  pixfmts : List String
deriving DecidableEq, Repr

/-- A vocabulary attr pattern of `VideoStream.attrs`:
`re.compile(r'\s*(?P<name>{})'.format('|'.join(names)))` used via `.match`:
optional leading whitespace, then the first vocabulary name (alternation is
tried left to right) that is a literal prefix of the remainder. -/
def vocabMat (names : List String) (field : String) : Option String :=
  let r := field.data.dropWhile pySpace
  names.find? (fun n => n.data.isPrefixOf r)

/-- The geometry attr pattern `\s*(?P<shape>\d+x\d+)` of `VideoStream.attrs`,
combined with the later `map(int, self.shape.split('x'))` conversion of
`VideoStream.__init__`: returns the two numbers. -/
def shapeMat (field : String) : Option (Nat × Nat) :=
  let r := field.data.dropWhile pySpace
  match digits1 r with
  | none => none
  | some (d1, r1) =>
    match r1 with
    | 'x' :: r2 =>
      match digits1 r2 with
      | none => none
      | some (d2, _) => some (natOfDigits d1, natOfDigits d2)
    | _ => none

/-- The frame-rate attr pattern `\s*(?P<fps>\d+) (?:fps|tbr)` of
`VideoStream.attrs`, combined with the later `int(self.fps)` conversion. -/
def fpsMat (field : String) : Option Nat :=
  let r := field.data.dropWhile pySpace
  match digits1 r with
  | none => none
  | some (d, r1) =>
    match r1 with
    | ' ' :: r2 =>
      if "fps".data.isPrefixOf r2 || "tbr".data.isPrefixOf r2 then
        some (natOfDigits d)
      else none
    | _ => none

/-- Python exceptions raised by the embedded code: `AttributeError` (calling
a missing method or attribute, e.g. `RewindIt.push` or `None.split`),
`ValueError` (explicit raises), `ZeroDivisionError` (`%` or `//` by zero). -/
inductive PyErr where
  | attributeError
  | valueError
  | zeroDivisionError
deriving DecidableEq, Repr

/-- The video-relevant fields of a parsed `VideoStream`. -/
structure VideoRec where
  codec : Option String
  pix_fmt : Option String
  width : Nat
  height : Nat
  fps : Option Nat
deriving DecidableEq, Repr

/-- A parsed stream record (`Stream`/`VideoStream`/`AudioStream`), tagged by
the type token of the line. -/
inductive StreamRec where
  | video (name : String) (v : VideoRec)
  | audio (name : String) (info : List String)
  | other (name : String) (tp : String) (info : List String)
deriving DecidableEq, Repr

/-- Stream identity, the key of the `IO.streams` dict. -/
def StreamRec.name : StreamRec → String
  | .video n _ => n
  | .audio n _ => n
  | .other n _ _ => n

/-- The attr loop of `Stream.__init__` (stream.py lines 41-48) for a single
(attr, pattern) pair: fields are consumed from the shared iterator until the
first one matching the pattern; if none matches the iterator is exhausted
and the attr is set to `None`. -/
def scanOne {α : Type} (m : String → Option α) : List String → Option α × List String
  | [] => (none, [])
  | f :: fs =>
    match m f with
    | some v => (some v, fs)
    | none => scanOne m fs

/-- `VideoStream.__init__`: run the attr loop over the field list for
codec, pix_fmt, shape and fps in that order (one shared iterator), then
split the shape.  When no field matched the shape pattern, `self.shape` is
`None` and `self.shape.split('x')` raises `AttributeError`. -/
def videoOfInfo (v : Vocab) (info : List String) : Except PyErr VideoRec :=
  let c := scanOne (vocabMat v.codecs) info
  let p := scanOne (vocabMat v.pixfmts) c.2
  let sh := scanOne shapeMat p.2
  let f := scanOne fpsMat sh.2
  match sh.1 with
  | none => .error .attributeError
  | some wh => .ok ⟨c.1, p.1, wh.1, wh.2, f.1⟩

/-- `Stream.parse` (stream.py lines 50-62): match the stream regex, split the
info tail into fields, and dispatch on the type token; a line that does not
match is `None` (not an error). -/
def streamParse (v : Vocab) (line : String) : Except PyErr (Option StreamRec) :=
  match streamHead line with
  | none => .ok none
  | some (name, tp, info) =>
    let fields := fieldsOf info
    if tp = "Video" then
      match videoOfInfo v fields with
      | .error e => .error e
      | .ok vr => .ok (some (.video name vr))
    else if tp = "Audio" then .ok (some (.audio name fields))
    else .ok (some (.other name tp fields))

/-!  ## Input/Output block parsing (`eparse/ffio.py`)  -/

/-- Start positions for the `(?:.*\r|^)` prefix of the IO header regexes:
positions just after each carriage return before the first newline (`.` does
not match a newline), greediest (rightmost) first, then position 0 for the
`^` alternative. -/
def crStarts (cs : List Char) : List Nat :=
  let upto := cs.takeWhile (fun c => c ≠ '\n')
  (((List.range upto.length).filter
      (fun k => (upto.drop k).head? = some '\r')).map (fun k => k + 1)).reverse ++ [0]

/-- The `(?P<name>.*)':\r?\n?$` tail of the IO header regexes: strip one
trailing newline, then one trailing carriage return, require the remainder
to end with a quote and colon; the greedy name capture is the rest and may
not contain a newline. -/
def nameEnd (r : List Char) : Option String :=
  let r1 := if r.getLast? = some '\n' then r.dropLast else r
  let r2 := if r1.getLast? = some '\r' then r1.dropLast else r1
  if 2 ≤ r2.length && r2.drop (r2.length - 2) = ['\'', ':'] then
    let nm := r2.take (r2.length - 2)
    if nm.contains '\n' then none else some (String.mk nm)
  else none

/-- The body of an IO header regex (ffio.py `IO.patterns`) after the start
position: `Input #(?P<num>\d+), \S+, from '...'` or the `Output`/`to`
variant.  The container `\S+` must be followed by the literal `, from '`;
since the comma is nonspace and the following space ends any nonspace run,
the only viable split puts the comma as the last character of the maximal
nonspace run. -/
def ioTail (isIn : Bool) (cs : List Char) : Option (Nat × String) :=
  match lit (if isIn then "Input #".data else "Output #".data) cs with
  | none => none
  | some r0 =>
  match digits1 r0 with
  | none => none
  | some (ds, r1) =>
  match lit ", ".data r1 with
  | none => none
  | some r2 =>
    let run := r2.takeWhile (fun c => !pySpace c)
    let rest := r2.dropWhile (fun c => !pySpace c)
    if 2 ≤ run.length && run.getLast? = some ',' then
      match lit (if isIn then " from '".data else " to '".data) rest with
      | none => none
      | some r3 => (nameEnd r3).map (fun nm => (natOfDigits ds, nm))
    else none

/-- `IO.parse` header matching (ffio.py lines 59-64): try the Input pattern,
then the Output pattern, on the first line of the block.  Returns the type
tag (`"In"`/`"Out"`), the number (already `int`-converted as in
`IO.__init__`) and the endpoint name. -/
def ioHead (line : String) : Option (String × Nat × String) :=
  let cs := line.data
  match (crStarts cs).findSome? (fun p => ioTail true (cs.drop p)) with
  | some r => some ("In", r.1, r.2)
  | none =>
    match (crStarts cs).findSome? (fun p => ioTail false (cs.drop p)) with
    | some r => some ("Out", r.1, r.2)
    | none => none

/-- An `IO` object (ffio.py): direction tag, number, endpoint name and the
streams dict keyed by stream identity. -/
structure IoBlock where
  tp : String
  num : Nat
  name : String
  streams : List (String × StreamRec)
deriving DecidableEq, Repr

/-- Python dict assignment `d[k] = v`: update in place when the key exists,
append otherwise. -/
def dictPut {α β : Type} [DecidableEq α] (d : List (α × β)) (k : α) (v : β) : List (α × β) :=
  if d.any (fun e => e.1 = k) then d.map (fun e => if e.1 = k then (k, v) else e)
  else d ++ [(k, v)]

/-- `list(filter(None, map(Stream.parse, islice(block, 1, None))))`
(ffio.py lines 65-66): parse every remaining line of the block, dropping the
non-matching ones; an exception from `Stream.parse` propagates. -/
def parseStreams (v : Vocab) : List String → Except PyErr (List StreamRec)
  | [] => .ok []
  | l :: rest =>
    match streamParse v l with
    | .error e => .error e
    | .ok none => parseStreams v rest
    | .ok (some s) =>
      match parseStreams v rest with
      | .error e => .error e
      | .ok ss => .ok (s :: ss)

/-- `IO.parse` (ffio.py lines 52-69) on a block split into header and tail:
`None` when the header matches neither pattern, otherwise an `IoBlock` whose
streams dict is `{s.name: s for s in streams}`. -/
def ioParse (v : Vocab) (hd : String) (tl : List String) : Except PyErr (Option IoBlock) :=
  match ioHead hd with
  | none => .ok none
  | some (tp, n, nm) =>
    match parseStreams v tl with
    | .error e => .error e
    | .ok ss => .ok (some ⟨tp, n, nm, ss.foldl (fun d s => dictPut d s.name s) []⟩)

/-!  ## Stream-mapping block parsing (`eparse/streammap.py`)  -/

/-- Python `str.rstrip()`: drop trailing whitespace. -/
def rstripPy (s : String) : String :=
  String.mk (s.data.reverse.dropWhile pySpace).reverse

/-- `block[0].rstrip().endswith('Stream mapping:')` (streammap.py line 15). -/
def smHeader (line : String) : Bool :=
  "Stream mapping:".data.isSuffixOf (rstripPy line).data

/-- Try the `\s+->\s+#(?P<oname>\d+:\d+)` part of the mapping regex with the
arrow at position `q` of `t`: at least one whitespace character must
immediately precede the arrow, the greedy `.*` before that whitespace run
may not contain a newline, and after the arrow come whitespace, `#` and the
output id. -/
def mapArrowTry (t : List Char) (q : Nat) : Option String :=
  let beforeWs := (t.take q).reverse.takeWhile pySpace
  if beforeWs.isEmpty then none
  else if (t.take (q - beforeWs.length)).contains '\n' then none
  else
    match ws1 (t.drop (q + 2)) with
    | none => none
    | some a1 =>
      match a1 with
      | '#' :: a2 =>
        match digits1 a2 with
        | none => none
        | some (e1, a3) =>
          match a3 with
          | ':' :: a4 =>
            match digits1 a4 with
            | none => none
            | some (e2, _) => some (String.mk (e1 ++ ':' :: e2))
          | _ => none
      | _ => none

/-- The positions of `->` in `t`, rightmost first (the greedy `.*` prefers
the rightmost arrow whose continuation matches). -/
def arrowPositions (t : List Char) : List Nat :=
  ((List.range t.length).filter (fun k => "->".data.isPrefixOf (t.drop k))).reverse

/-- `StreamMap.pattern` (streammap.py lines 6-7):
`\s+Stream #(?P<iname>\d+:\d+).*\s+->\s+#(?P<oname>\d+:\d+)` via `.match`.
The parenthesised codec-transition text after the output id is not part of
the pattern and is ignored. -/
def mapLineMat (line : String) : Option (String × String) :=
  match ws1 line.data with
  | none => none
  | some r1 =>
  match lit "Stream #".data r1 with
  | none => none
  | some r2 =>
  match digits1 r2 with
  | none => none
  | some (d1, r3) =>
  match r3 with
  | ':' :: r4 =>
    match digits1 r4 with
    | none => none
    | some (d2, t) =>
      match (arrowPositions t).findSome? (mapArrowTry t) with
      | none => none
      | some oname => some (String.mk (d1 ++ ':' :: d2), oname)
  | _ => none

/-- `StreamMap.parse` (streammap.py lines 12-21) on a block split into
header and tail: `None` unless the header ends with `Stream mapping:`;
otherwise the ordered pairs of the matching tail lines (non-matching lines
are skipped by the `filter(None, ...)`). -/
def smParse (hd : String) (tl : List String) : Option (List (String × String)) :=
  if smHeader hd then some (tl.filterMap mapLineMat) else none

/-!  ## Pushback line source and block segmenter
(`preit.py` `PreIt`, `eparse/blockiter.py` `BlockIter`)

The iterator protocol is made explicit: a `PreIt` is its pushback stack
`pre` (top first, since `push` appends and iteration pops from the end)
together with the not-yet-consumed remainder of the underlying source. -/

/-- The state of a `PreIt` (preit.py): `pre` is the pushback stack, top
first; `rest` the unconsumed lines of the underlying iterator. -/
structure PreItSt where
  pre : List String
  rest : List String
deriving DecidableEq, Repr

/-- The lines a `PreIt` will still yield, in order. -/
def PreItSt.toLines (s : PreItSt) : List String :=
  s.pre ++ s.rest

/-- The inner loop of `BlockIter.__iter__` (blockiter.py lines 20-25) once
the pushback stack is empty: keep yielding indented lines; the first
non-indented line is pushed back (becoming the new top of `pre`) and ends
the block; exhaustion of the source also ends the block. -/
def takeIndentedRest : List String → List String × PreItSt
  | [] => ([], ⟨[], []⟩)
  | l :: rest =>
    if indentedB l then
      let r := takeIndentedRest rest
      (l :: r.1, r.2)
    else ([], ⟨[l], rest⟩)

/-- The inner loop of `BlockIter.__iter__` while the pushback stack is
nonempty (pushed lines are yielded first). -/
def takeIndentedPre : List String → List String → List String × PreItSt
  | [], rest => takeIndentedRest rest
  | l :: pre, rest =>
    if indentedB l then
      let r := takeIndentedPre pre rest
      (l :: r.1, r.2)
    else ([], ⟨l :: pre, rest⟩)

/-- One block of `BlockIter` (blockiter.py lines 16-25) over a `PreIt`: the
next available line, whatever it is, followed by the indented run; returns
the block and the state of the source afterwards.  An exhausted source
yields the empty block. -/
def blockOf : PreItSt → List String × PreItSt
  | ⟨[], []⟩ => ([], ⟨[], []⟩)
  | ⟨[], l :: rest⟩ =>
    let r := takeIndentedRest rest
    (l :: r.1, r.2)
  | ⟨l :: pre, rest⟩ =>
    let r := takeIndentedPre pre rest
    (l :: r.1, r.2)

/-!  ## The protocol driver (`eparse/eparse.py` `FFmpegEParser`)

`FFmpegEParser.__init__` wraps the line iterator in a `RewindIt`
(its.py lines 34-63) and repeatedly materialises `list(BlockIter(it))`.
`RewindIt` defines only `rewind`; it has no `push` method, so when
`BlockIter.__iter__` reaches a non-indented line after the block header and
executes `preit.push(line)` (blockiter.py line 24), Python raises
`AttributeError`.  Consequently a block materialises successfully only when
the source is exhausted inside the indented run; a block that is terminated
by a following non-indented line aborts the whole parse with
`AttributeError`.  The translation below reflects this faithfully. -/

/-- The state accumulated by `FFmpegEParser.__init__` (eparse.py lines
20-26): the stream mapping once found, the `ins`/`outs` dicts keyed by IO
number, and the four sets used by the termination test.  Sets are modelled
as duplicate-free-by-insertion lists; only membership matters to the
subset tests. -/
structure EState where
  streammap : Option (List (String × String))
  ins : List (Nat × IoBlock)
  outs : List (Nat × IoBlock)
  istreams : List String
  ostreams : List String
  itargets : List String
  otargets : List String
deriving DecidableEq, Repr

/-- The initial driver state. -/
def initEState : EState :=
  ⟨none, [], [], [], [], [], []⟩

/-- Python `set.add` for the list model of sets. -/
def setInsert (s : List String) (x : String) : List String :=
  if s.contains x then s else s ++ [x]

/-- Python `set.update` for the list model of sets. -/
def setUpdate (s : List String) (xs : List String) : List String :=
  xs.foldl setInsert s

/-- `big.issuperset(small)`, i.e. every element of `small` is in `big`. -/
def subsetB (small big : List String) : Bool :=
  small.all big.contains

/-- The `while` condition of `FFmpegEParser.__init__` (eparse.py lines
27-29): keep pulling blocks while the mapping is unknown, or not both
`istreams.issuperset(itargets)` and `ostreams.issuperset(otargets)` hold. -/
def loopContinue (s : EState) : Bool :=
  s.streammap.isNone || !(subsetB s.itargets s.istreams && subsetB s.otargets s.ostreams)

/-- The `else` arm of the block dispatch (eparse.py lines 44-49):
`mp = StreamMap.parse(block)` followed by the truthiness test `if mp:`.
`StreamMap` defines `__len__` (streammap.py lines 27-28), so a `StreamMap`
with an empty mapping list is falsy and is NOT recorded: `self.streammap`
stays as it was. -/
def smBranch (hd : String) (tl : List String) (s : EState) : EState :=
  match smParse hd tl with
  | some mp =>
    if mp.isEmpty then s
    else { s with streammap := some mp,
                  itargets := setUpdate s.itargets (mp.map Prod.fst),
                  otargets := setUpdate s.otargets (mp.map Prod.snd) }
  | none => s

/-- The block dispatch of one loop iteration (eparse.py lines 36-49):
`io = IO.parse(block)` then the truthiness test `if io:`.  `IO` defines
`__len__` (ffio.py lines 44-45), so an `IO` whose streams dict is empty is
falsy — like `None` it falls through to the `StreamMap` arm.  A truthy
`IO` updates the corresponding dict and stream-name set
(`istreams.update(io)` iterates the keys of the streams dict). -/
def processBlock (v : Vocab) (hd : String) (tl : List String) (s : EState) : Except PyErr EState :=
  match ioParse v hd tl with
  | .error e => .error e
  | .ok (some iob) =>
    if iob.streams.isEmpty then .ok (smBranch hd tl s)
    else if iob.tp = "In" then
      .ok { s with ins := dictPut s.ins iob.num iob,
                   istreams := setUpdate s.istreams (iob.streams.map Prod.fst) }
    else
      .ok { s with outs := dictPut s.outs iob.num iob,
                   ostreams := setUpdate s.ostreams (iob.streams.map Prod.fst) }
  | .ok none => .ok (smBranch hd tl s)

/-- The loop of `FFmpegEParser.__init__` (eparse.py lines 27-49) over the
remaining lines of the `RewindIt`.  While the loop condition holds:
`list(BlockIter(it))` is materialised — an empty list (exhausted source)
raises `ValueError` (line 33); a block ended by a following non-indented
line aborts with `AttributeError` at the missing `RewindIt.push` (see the
section comment); otherwise the block is the header plus the entire
indented remainder, the source is exhausted, and the loop continues.  The
structural `fuel` argument only bounds the number of iterations; every
iteration either stops or consumes at least one line, so the
`lines.length + 1` supplied by `eparseRun` is never exhausted. -/
def parseLoop (v : Vocab) : Nat → List String → EState → Except PyErr EState
  | 0, _, _ => .error .valueError
  | fuel + 1, lines, s =>
    if loopContinue s then
      match lines with
      | [] => .error .valueError
      | l :: rest =>
        if (rest.dropWhile indentedB).isEmpty then
          match processBlock v l (rest.takeWhile indentedB) s with
          | .error e => .error e
          | .ok s₁ => parseLoop v fuel (rest.dropWhile indentedB) s₁
        else .error .attributeError
    else .ok s

/-- `FFmpegEParser(it)` (eparse.py lines 9-49) on a finite list of lines
(`verbose` only echoes blocks to stderr and does not affect the result). -/
def eparseRun (v : Vocab) (lines : List String) : Except PyErr EState :=
  parseLoop v (lines.length + 1) lines initEState

/-!  ## The pixel-format layout resolver (`retrieve.py`
`FrameRetriever.frameinfo`)  -/

/-- The numpy element types produced by `frameinfo` (`dtypes` dict keys are
bit widths 8/16/32/64). -/
inductive ElemType where
  | u8
  | u16
  | u32
  | u64
deriving DecidableEq, Repr

/-- Bytes per element of each element type. -/
def elemBytes : ElemType → Nat
  | .u8 => 1
  | .u16 => 2
  | .u32 => 4
  | .u64 => 8

/-- Total bytes of a buffer of the given shape and element type
(`np.empty(shape, dtype).nbytes`). -/
def bufferBytes (shape : List Nat) (et : ElemType) : Nat :=
  (shape.foldl (fun a b => a * b) 1) * elemBytes et

/-- The `dtypes` dict of `frameinfo` (retrieve.py lines 93-98): bit width to
element type, `none` for a non-standard width (`dict.get` returning
`None`). -/
def dtypeOf (bits : Nat) : Option ElemType :=
  if bits = 8 then some .u8
  else if bits = 16 then some .u16
  else if bits = 32 then some .u32
  else if bits = 64 then some .u64
  else none

/-- A pixel-format descriptor as consumed by `frameinfo`: the dict from
`info.PixFmts` with its `name` and the `NB_COMPONENTS` / `BITS_PER_PIXEL`
fields. -/
structure PixFmt where
  name : String
  nbComponents : Nat
  bitsPerPixel : Nat
deriving DecidableEq, Repr

/-- The named fast paths of `frameinfo` (retrieve.py lines 81-90).  The
4:2:0 branch computes `int(height * 1.5)`; for the (exactly representable)
values involved this equals `3 * height / 2` in natural division. -/
def fastShape (name : String) (width height : Nat) : Option (List Nat × ElemType) :=
  if name = "bgr24" || name = "rgb24" then some ([height, width, 3], .u8)
  else if name = "yuv444p" || name = "yuvj444p" then some ([3, height, width], .u8)
  else if name = "yuv422p" then some ([2, height, width], .u8)
  else if name = "yuyv422" || name = "uyvy422" || name = "yvyu422" then
    some ([height, width, 2], .u8)
  else if name = "yuv420p" || name = "nv12" || name = "yuvj420p" then
    some ([3 * height / 2, width], .u8)
  else none

/-- Python `'bayer' in name`. -/
def hasBayer (name : String) : Bool :=
  (List.range name.data.length).any (fun k => "bayer".data.isPrefixOf (name.data.drop k))

/-- The per-component branch of `frameinfo` (retrieve.py lines 99-108),
reached with a nonzero component count: when the bits per pixel divide
evenly by the component count and the quotient is a standard width, the
shape is channel-first for the (unreachable, kept verbatim) `yuv444p`
comparison and `(height, width, channels)` otherwise; `none` when the
branch does not return. -/
def structuredOf (f : PixFmt) (width height : Nat) : Option (List Nat × ElemType) :=
  if f.bitsPerPixel % f.nbComponents = 0 then
    (dtypeOf (f.bitsPerPixel / f.nbComponents)).map
      (fun tp => (if f.name = "yuv444p" then [f.nbComponents, height, width]
                  else [height, width, f.nbComponents], tp))
  else none

/-- The even-height 4:2:0-style spread branch of `frameinfo` (retrieve.py
lines 109-116), reached with a nonzero spread pixel count: the total bit
budget spread over `height + height // 2` rows when it divides evenly into
a standard element width; `none` when the branch does not return. -/
def spreadOf (f : PixFmt) (width height : Nat) : Option (List Nat × ElemType) :=
  if (f.bitsPerPixel * height * width) % ((height + height / 2) * width) = 0 then
    (dtypeOf ((f.bitsPerPixel * height * width) / ((height + height / 2) * width))).map
      (fun tp => ([height + height / 2, width], tp))
  else none

/-- `FrameRetriever.frameinfo` (retrieve.py lines 77-126): named fast paths;
then the per-component branch (`bppx % nchan` raises `ZeroDivisionError`
when the component count is zero); then the even-height 4:2:0-style spread
(`totalbits % npix` raises `ZeroDivisionError` when the spread shape is
empty); then the packed 16-bit 3-component branch unless the name contains
`bayer`; finally a flat byte buffer when the bit budget is divisible by 8,
and the unsupported-pixel-format `ValueError` otherwise.  A flat buffer is
a one-element shape, as `np.empty` of an int makes a 1-D array. -/
def frameinfo (f : PixFmt) (width height : Nat) : Except PyErr (List Nat × ElemType) :=
  match fastShape f.name width height with
  | some r => .ok r
  | none =>
    if f.nbComponents = 0 then .error .zeroDivisionError
    else
      match structuredOf f width height with
      | some r => .ok r
      | none =>
        let totalbits := f.bitsPerPixel * height * width
        let afterSpread : Except PyErr (List Nat × ElemType) :=
          if f.nbComponents = 3 ∧ f.bitsPerPixel = 16 ∧ hasBayer f.name = false then
            .ok ([2, height, width], .u8)
          else if totalbits % 8 = 0 then .ok ([totalbits / 8], .u8)
          else .error .valueError
        if height % 2 = 0 then
          if (height + height / 2) * width = 0 then .error .zeroDivisionError
          else
            match spreadOf f width height with
            | some r => .ok r
            | none => afterSpread
        else afterSpread

/-!  ## Concrete inputs used by the claims  -/

/-- A vocabulary containing the codec and pixel-format names of the spec's
Example 1, as the claims assume. -/
def exVocab : Vocab :=
  ⟨["h264", "rawvideo"], ["yuv420p", "bgr24"]⟩

/-- The Example 1 transcript of the spec, as the line list a text-mode read
of it produces. -/
def example1 : List String := [
  "Input #0, matroska,webm, from 'a.mkv':\n",
  "  Stream #0:0: Video: h264, yuv420p, 1280x540, 15 fps, 15 tbr\n",
  "Output #0, rawvideo, to 'pipe:':\n",
  "  Stream #0:0: Video: rawvideo, bgr24, 1280x540, 15 fps\n",
  "Stream mapping:\n",
  "  Stream #0:0 -> #0:0 (h264 -> rawvideo)\n"]

/-- A transcript whose stream mapping and mapped output stream are complete
at the second block boundary (no input blocks at all). -/
def outputThenMapping : List String := [
  "Output #0, rawvideo, to 'pipe:':\n",
  "  Stream #0:0: Video: rawvideo, bgr24, 1280x540, 15 fps\n",
  "Stream mapping:\n",
  "  Stream #0:0 -> #0:0 (h264 -> rawvideo)\n"]

/-- A driver state in which the mapping is known and its only output-side id
is among the collected output stream names, while its input-side id `5:0`
has not been seen among inputs.  Only the mapping and the four name sets
are read by the loop condition. -/
def c2State : EState :=
  ⟨some [("5:0", "0:0")], [], [], [], ["0:0"], ["5:0"], ["0:0"]⟩

/-!  ## Helper lemmas  -/

theorem scanOne_fst {α : Type} (m : String → Option α) :
    ∀ fields : List String, (scanOne m fields).1 = fields.findSome? m := by
  intro fields
  induction fields with
  | nil => rfl
  | cons f fs ih =>
    rw [scanOne, List.findSome?]
    cases m f with
    | none => simpa using ih
    | some v => rfl

theorem scanOne_rest_all {α : Type} (m : String → Option α) (p : String → Bool) :
    ∀ fields : List String, fields.all p = true → ((scanOne m fields).2).all p = true := by
  intro fields
  induction fields with
  | nil => intro h; exact h
  | cons f fs ih =>
    intro h
    rw [List.all_cons, Bool.and_eq_true] at h
    rw [scanOne]
    cases m f with
    | none => exact ih h.2
    | some v => exact h.2

theorem scanOne_none_of_all {α : Type} (m : String → Option α) :
    ∀ fields : List String, fields.all (fun f => (m f).isNone) = true →
      (scanOne m fields).1 = none := by
  intro fields
  induction fields with
  | nil => intro _; rfl
  | cons f fs ih =>
    intro h
    rw [List.all_cons, Bool.and_eq_true] at h
    rw [scanOne]
    cases hm : m f with
    | none => exact ih h.2
    | some v => rw [hm] at h; simp at h

theorem scanOne_rest_subset {α : Type} (m : String → Option α) :
    ∀ (fields : List String) (f : String), f ∈ (scanOne m fields).2 → f ∈ fields := by
  intro fields
  induction fields with
  | nil => intro f h; exact absurd h (by simp [scanOne])
  | cons g fs ih =>
    intro f h
    rw [scanOne] at h
    cases hm : m g with
    | none => rw [hm] at h; exact List.mem_cons_of_mem g (ih f h)
    | some v => rw [hm] at h; exact List.mem_cons_of_mem g h

theorem scanOne_some_mem {α : Type} (m : String → Option α) :
    ∀ (fields : List String) (v : α), (scanOne m fields).1 = some v →
      ∃ f, f ∈ fields ∧ (m f).isSome = true := by
  intro fields
  induction fields with
  | nil => intro v h; exact absurd h (by simp [scanOne])
  | cons g fs ih =>
    intro v h
    rw [scanOne] at h
    cases hm : m g with
    | none =>
      rw [hm] at h
      obtain ⟨f, hf, hs⟩ := ih v h
      exact ⟨f, List.mem_cons_of_mem g hf, hs⟩
    | some w => exact ⟨g, List.mem_cons_self g fs, by rw [hm]; rfl⟩

theorem takeIndentedRest_spec (rest : List String) :
    (takeIndentedRest rest).1 = rest.takeWhile indentedB ∧
    (takeIndentedRest rest).2.toLines = rest.dropWhile indentedB := by
  induction rest with
  | nil => exact ⟨rfl, rfl⟩
  | cons l r ih =>
    by_cases h : indentedB l
    · constructor
      · simp [takeIndentedRest, h, List.takeWhile_cons, ih.1]
      · simp [takeIndentedRest, h, List.dropWhile_cons, ih.2]
    · constructor
      · simp [takeIndentedRest, h, List.takeWhile_cons]
      · simp [takeIndentedRest, h, List.dropWhile_cons, PreItSt.toLines]

theorem takeIndentedPre_spec (pre : List String) :
    ∀ rest : List String,
      (takeIndentedPre pre rest).1 = (pre ++ rest).takeWhile indentedB ∧
      (takeIndentedPre pre rest).2.toLines = (pre ++ rest).dropWhile indentedB := by
  induction pre with
  | nil => intro rest; simpa [takeIndentedPre] using takeIndentedRest_spec rest
  | cons l p ih =>
    intro rest
    by_cases h : indentedB l
    · constructor
      · simp [takeIndentedPre, h, List.takeWhile_cons, (ih rest).1]
      · simp [takeIndentedPre, h, List.dropWhile_cons, (ih rest).2]
    · constructor
      · simp [takeIndentedPre, h, List.takeWhile_cons]
      · simp [takeIndentedPre, h, List.dropWhile_cons, PreItSt.toLines]

theorem parseLoop_ok_not_continue (v : Vocab) :
    ∀ (fuel : Nat) (lines : List String) (s r : EState),
      parseLoop v fuel lines s = .ok r → loopContinue r = false := by
  intro fuel
  induction fuel with
  | zero => intro lines s r h; exact absurd h (by simp [parseLoop])
  | succ n ih =>
    intro lines s r h
    rw [parseLoop.eq_def] at h
    simp only [] at h
    by_cases hc : loopContinue s
    · rw [if_pos hc] at h
      cases lines with
      | nil => exact absurd h (by simp)
      | cons l rest =>
        simp only [] at h
        by_cases he : (rest.dropWhile indentedB).isEmpty
        · rw [if_pos he] at h
          cases hp : processBlock v l (rest.takeWhile indentedB) s with
          | error e => rw [hp] at h; exact absurd h (by simp)
          | ok s₁ => rw [hp] at h; exact ih _ _ _ h
        · rw [if_neg he] at h; exact absurd h (by simp)
    · rw [if_neg hc] at h
      cases h
      exact Bool.eq_false_iff.mpr hc

theorem loopContinue_false (r : EState) (h : loopContinue r = false) :
    r.streammap.isSome = true ∧ subsetB r.itargets r.istreams = true ∧
      subsetB r.otargets r.ostreams = true := by
  rw [loopContinue, Bool.or_eq_false_iff] at h
  obtain ⟨h1, h2⟩ := h
  rw [Bool.not_eq_false', Bool.and_eq_true] at h2
  refine ⟨?_, h2.1, h2.2⟩
  cases hm : r.streammap with
  | none => rw [hm] at h1; exact absurd h1 (by simp)
  | some mp => rfl

theorem parseStreams_skip (v : Vocab) (noise : String) (hn : streamParse v noise = .ok none) :
    ∀ (pre post : List String),
      parseStreams v (pre ++ noise :: post) = parseStreams v (pre ++ post) := by
  intro pre
  induction pre with
  | nil =>
    intro post
    rw [List.nil_append, List.nil_append, parseStreams, hn]
  | cons l p ih =>
    intro post
    rw [List.cons_append, List.cons_append, parseStreams, parseStreams, ih post]


theorem parseLoop_succ (v : Vocab) (fuel : Nat) (lines : List String) (s : EState) :
    parseLoop v (fuel + 1) lines s =
      (if loopContinue s then
        match lines with
        | [] => .error .valueError
        | l :: rest =>
          if (rest.dropWhile indentedB).isEmpty then
            match processBlock v l (rest.takeWhile indentedB) s with
            | .error e => .error e
            | .ok s₁ => parseLoop v fuel (rest.dropWhile indentedB) s₁
          else .error .attributeError
      else .ok s) := rfl

theorem setInsert_ne_nil (s : List String) (x : String) : setInsert s x ≠ [] := by
  rw [setInsert]
  by_cases hc : s.contains x
  · rw [if_pos hc]
    intro hnil
    rw [hnil] at hc
    simp at hc
  · rw [if_neg hc]
    simp

theorem setUpdate_ne_nil : ∀ (xs s : List String), s ≠ [] → setUpdate s xs ≠ []
  | [], _, hs => hs
  | x :: xs, s, _ => setUpdate_ne_nil xs (setInsert s x) (setInsert_ne_nil s x)

theorem smBranch_init_continue (hd : String) (tl : List String) :
    loopContinue (smBranch hd tl initEState) = true := by
  rw [smBranch]
  cases hsm : smParse hd tl with
  | none => rfl
  | some mp =>
    cases mp with
    | nil => rfl
    | cons a l =>
      simp only [List.isEmpty_cons, if_false, Bool.false_eq_true]
      rw [loopContinue]
      have hne : setUpdate [] (a.1 :: List.map Prod.fst l) ≠ [] :=
        setUpdate_ne_nil (List.map Prod.fst l) (setInsert [] a.1) (setInsert_ne_nil [] a.1)
      have hsub : subsetB (setUpdate [] (a.1 :: List.map Prod.fst l)) [] = false := by
        cases hq : setUpdate [] (a.1 :: List.map Prod.fst l) with
        | nil => exact absurd hq hne
        | cons b m => simp [subsetB]
      simp [initEState, hsub]

theorem processBlock_init_continue (v : Vocab) (hd : String) (tl : List String) (s₁ : EState)
    (h : processBlock v hd tl initEState = .ok s₁) : loopContinue s₁ = true := by
  rw [processBlock] at h
  cases hio : ioParse v hd tl with
  | error e => rw [hio] at h; exact absurd h (by simp)
  | ok iores =>
    rw [hio] at h
    cases iores with
    | none =>
      simp only [] at h
      cases h
      exact smBranch_init_continue hd tl
    | some iob =>
      simp only [] at h
      by_cases hse : iob.streams.isEmpty
      · rw [if_pos hse] at h
        cases h
        exact smBranch_init_continue hd tl
      · rw [if_neg hse] at h
        by_cases hin : iob.tp = "In"
        · rw [if_pos hin] at h; cases h; rfl
        · rw [if_neg hin] at h; cases h; rfl

theorem videoOfInfo_error (v : Vocab) (info : List String) (e : PyErr)
    (h : videoOfInfo v info = .error e) : e = .attributeError := by
  rw [videoOfInfo] at h
  cases hsh : (scanOne shapeMat
      (scanOne (vocabMat v.pixfmts) (scanOne (vocabMat v.codecs) info).2).2).1 with
  | none => rw [hsh] at h; cases h; rfl
  | some wh => rw [hsh] at h; exact absurd h (by simp)

theorem streamParse_error (v : Vocab) (l : String) (e : PyErr)
    (h : streamParse v l = .error e) : e = .attributeError := by
  rw [streamParse] at h
  cases hh : streamHead l with
  | none => rw [hh] at h; exact absurd h (by simp)
  | some t =>
    rw [hh] at h
    obtain ⟨name, tp, info⟩ := t
    simp only [] at h
    by_cases hv : tp = "Video"
    · rw [if_pos hv] at h
      cases hvo : videoOfInfo v (fieldsOf info) with
      | error e2 =>
        rw [hvo] at h
        simp only [] at h
        cases h
        exact videoOfInfo_error v (fieldsOf info) e hvo
      | ok vr => rw [hvo] at h; exact absurd h (by simp)
    · rw [if_neg hv] at h
      by_cases ha : tp = "Audio"
      · rw [if_pos ha] at h; exact absurd h (by simp)
      · rw [if_neg ha] at h; exact absurd h (by simp)

theorem parseStreams_error (v : Vocab) : ∀ (tl : List String) (e : PyErr),
    parseStreams v tl = .error e → e = .attributeError := by
  intro tl
  induction tl with
  | nil => intro e h; exact absurd h (by simp [parseStreams])
  | cons l rest ih =>
    intro e h
    rw [parseStreams] at h
    cases hs : streamParse v l with
    | error e2 =>
      rw [hs] at h
      simp only [] at h
      cases h
      exact streamParse_error v l e hs
    | ok o =>
      rw [hs] at h
      cases o with
      | none => simp only [] at h; exact ih e h
      | some srec =>
        simp only [] at h
        cases hr : parseStreams v rest with
        | error e2 =>
          rw [hr] at h
          simp only [] at h
          cases h
          exact ih e hr
        | ok ss => rw [hr] at h; exact absurd h (by simp)

theorem ioParse_error (v : Vocab) (hd : String) (tl : List String) (e : PyErr)
    (h : ioParse v hd tl = .error e) : e = .attributeError := by
  rw [ioParse] at h
  cases hh : ioHead hd with
  | none => rw [hh] at h; exact absurd h (by simp)
  | some t =>
    rw [hh] at h
    obtain ⟨tp, n, nm⟩ := t
    simp only [] at h
    cases hp : parseStreams v tl with
    | error e2 =>
      rw [hp] at h
      simp only [] at h
      cases h
      exact parseStreams_error v tl e hp
    | ok ss => rw [hp] at h; exact absurd h (by simp)

theorem processBlock_error (v : Vocab) (hd : String) (tl : List String) (s : EState) (e : PyErr)
    (h : processBlock v hd tl s = .error e) : e = .attributeError := by
  rw [processBlock] at h
  cases hio : ioParse v hd tl with
  | error e2 =>
    rw [hio] at h
    simp only [] at h
    cases h
    exact ioParse_error v hd tl e hio
  | ok iores =>
    rw [hio] at h
    cases iores with
    | none => simp only [] at h; exact absurd h (by simp)
    | some iob =>
      simp only [] at h
      by_cases hse : iob.streams.isEmpty
      · rw [if_pos hse] at h; exact absurd h (by simp)
      · rw [if_neg hse] at h
        by_cases hin : iob.tp = "In"
        · rw [if_pos hin] at h; exact absurd h (by simp)
        · rw [if_neg hin] at h; exact absurd h (by simp)

theorem eparseRun_error_cases (v : Vocab) : ∀ lines : List String,
    eparseRun v lines = .error .valueError ∨ eparseRun v lines = .error .attributeError := by
  intro lines
  cases lines with
  | nil => exact Or.inl rfl
  | cons l rest =>
    rw [eparseRun]
    have hlen : (l :: rest).length + 1 = rest.length + 1 + 1 := by simp
    have hinit : loopContinue initEState = true := rfl
    rw [hlen, parseLoop_succ, if_pos hinit]
    simp only []
    by_cases he : (rest.dropWhile indentedB).isEmpty
    · rw [if_pos he]
      cases hp : processBlock v l (rest.takeWhile indentedB) initEState with
      | error e =>
        simp only []
        right
        rw [processBlock_error v l (rest.takeWhile indentedB) initEState e hp]
      | ok s₁ =>
        simp only []
        have hnil : rest.dropWhile indentedB = [] := by
          cases hq : rest.dropWhile indentedB with
          | nil => rfl
          | cons x xs => rw [hq] at he; simp at he
        rw [hnil]
        rw [parseLoop_succ, if_pos (processBlock_init_continue v l (rest.takeWhile indentedB) s₁ hp)]
        exact Or.inl rfl
    · rw [if_neg he]
      exact Or.inr rfl

/-!  ## Claim theorems  -/

/-- Claim C1: on the Example 1 transcript the protocol driver `FFmpegEParser`
does not terminate successfully: `BlockIter.__iter__` calls `preit.push` on
the `RewindIt` wrapper, which defines no `push` method, so the parse aborts
with `AttributeError` at the first block boundary (the non-indented
`Output` header line).  The remaining conjuncts evaluate the component
parsers on the transcript's lines and produce exactly the values the claim
expects, locating the failure in the driver's iterator wiring rather than
in the claimed values. -/
theorem eparse_example1_attributeError :
    eparseRun exVocab example1 = .error .attributeError ∧
    streamParse exVocab "  Stream #0:0: Video: h264, yuv420p, 1280x540, 15 fps, 15 tbr\n" =
      .ok (some (.video "0:0" ⟨some "h264", some "yuv420p", 1280, 540, some 15⟩)) ∧
    streamParse exVocab "  Stream #0:0: Video: rawvideo, bgr24, 1280x540, 15 fps\n" =
      .ok (some (.video "0:0" ⟨some "rawvideo", some "bgr24", 1280, 540, some 15⟩)) ∧
    smParse "Stream mapping:\n" ["  Stream #0:0 -> #0:0 (h264 -> rawvideo)\n"] =
      some [("0:0", "0:0")] ∧
    ioHead "Input #0, matroska,webm, from 'a.mkv':\n" = some ("In", 0, "a.mkv") ∧
    ioHead "Output #0, rawvideo, to 'pipe:':\n" = some ("Out", 0, "pipe:") :=
  ⟨rfl, rfl, rfl, rfl, rfl, rfl⟩

/-- Claim C2 counterexample: the driver's loop condition keeps parsing in a
state where the mapping is known and every output-side id is among the
collected output streams but the mapping's input-side id `5:0` is not among
the collected input streams — the input side is not ignored; and on a
transcript whose mapping and mapped outputs are complete at a block
boundary the driver does not reach DONE at all (it aborts with the missing
`RewindIt.push`). -/
theorem done_not_irrespective_of_inputs :
    loopContinue c2State = true ∧
    c2State.streammap.isSome = true ∧
    subsetB c2State.otargets c2State.ostreams = true ∧
    eparseRun exVocab outputThenMapping = .error .attributeError :=
  ⟨rfl, rfl, rfl, rfl⟩

/-- Claim C2 (amended): the driver's transition-to-DONE test — the negation
of the `while` condition at eparse.py lines 27-29 — succeeds exactly when
the mapping has been parsed AND every input-side id of the mapping is among
collected input stream names AND every output-side id is among collected
output stream names: the input side is not ignored.  Moreover in the
repository as composed the test never fires during a parse: on every finite
line source the driver raises (the missing `RewindIt.push`, the empty next
block, or — for an empty mapping block — the `__len__`-falsiness of
`StreamMap` leaving `streammap` unset) and never returns normally. -/
theorem eparse_done_requires_inputs_and_never_fires :
    (∀ s : EState, loopContinue s = false ↔
      (s.streammap.isSome = true ∧ subsetB s.itargets s.istreams = true ∧
        subsetB s.otargets s.ostreams = true)) ∧
    (∀ (v : Vocab) (lines : List String), ∃ e : PyErr, eparseRun v lines = .error e) := by
  constructor
  · intro s
    constructor
    · exact loopContinue_false s
    · rintro ⟨h1, h2, h3⟩
      rw [loopContinue]
      cases hm : s.streammap with
      | none => rw [hm] at h1; exact absurd h1 (by simp)
      | some mp => simp [h2, h3]
  · intro v lines
    rcases eparseRun_error_cases v lines with h | h
    · exact ⟨.valueError, h⟩
    · exact ⟨.attributeError, h⟩

/-- Claim C3: on every finite line source the driver raises — the bare
`ValueError` of eparse.py line 33 (the spec's IncompleteDiagnostics, hit
when the source is exhausted and the next block is empty) or the
`AttributeError` of the missing `RewindIt.push` (hit first at a block
boundary) — and never returns a silent partial result.  The termination
predicate is unsatisfiable against the collected state (see the C2
analysis), so every finite source is exhausted before it holds; in
particular the concrete conjunct runs a transcript with no Stream-mapping
block at all (a lone Input block, read to the end of the source) into the
eparse.py line 33 `ValueError`. -/
theorem eparse_exhaustion_error :
    (∀ (v : Vocab) (lines : List String),
      eparseRun v lines = .error .valueError ∨ eparseRun v lines = .error .attributeError) ∧
    eparseRun exVocab ["Input #0, matroska,webm, from 'a.mkv':\n",
      "  Stream #0:0: Video: h264, yuv420p, 1280x540, 15 fps, 15 tbr\n"] = .error .valueError :=
  ⟨fun v lines => eparseRun_error_cases v lines, rfl⟩

/-- Claim C4 counterexample: the driver never returns normally on any
finite source, so no transcript produces a successful result for noise
insertion to preserve; and the insertion of a noise line is observable all
the same: appending a trailing progress line — the spec's own example of
noise — to a lone Input block changes the outcome from the exhaustion
`ValueError` of eparse.py line 33 (the block previously ended at the end of
the source) to the pushback `AttributeError` (the block is now ended by a
non-indented line and `BlockIter` calls the missing `RewindIt.push`). -/
theorem noise_insertion_not_invariant :
    eparseRun exVocab ["Input #0, matroska,webm, from 'a.mkv':\n",
      "  Stream #0:0: Video: h264, yuv420p, 1280x540, 15 fps, 15 tbr\n"] =
      .error .valueError ∧
    eparseRun exVocab ["Input #0, matroska,webm, from 'a.mkv':\n",
      "  Stream #0:0: Video: h264, yuv420p, 1280x540, 15 fps, 15 tbr\n",
      "frame=0 fps=0.0 q=0.0 size=0kB\n"] =
      .error .attributeError :=
  ⟨rfl, rfl⟩

/-- Claim C4 (amended): noise insensitivity does hold one level down, inside
an already-segmented IO block: inserting a line that the stream-line
pattern does not match anywhere after the block header leaves `IO.parse`'s
result unchanged. -/
theorem ioParse_skips_noise (v : Vocab) (hd noise : String) (pre post : List String)
    (hn : streamParse v noise = .ok none) :
    ioParse v hd (pre ++ noise :: post) = ioParse v hd (pre ++ post) := by
  rw [ioParse, ioParse]
  cases ioHead hd with
  | none => rfl
  | some t => rw [parseStreams_skip v noise hn pre post]

theorem ioParse_skips_noise_witness :
    streamParse exVocab "Press [q] to stop, [?] for help\n" = .ok none ∧
    ioParse exVocab "Output #0, rawvideo, to 'pipe:':\n"
        (["  Stream #0:0: Video: rawvideo, bgr24, 1280x540, 15 fps\n"] ++
          "Press [q] to stop, [?] for help\n" :: []) =
      ioParse exVocab "Output #0, rawvideo, to 'pipe:':\n"
        (["  Stream #0:0: Video: rawvideo, bgr24, 1280x540, 15 fps\n"] ++ []) :=
  ⟨rfl, ioParse_skips_noise exVocab _ _ _ _ rfl⟩

/-- Claim C5: over a pushback source with at least one remaining line, a
block is that line followed by exactly the maximal run of immediately
following indented lines; afterwards the source holds exactly the remaining
lines (so the first non-indented line was pushed back and starts the next
block), and the block plus the remaining lines reassemble the original
lines — nothing is lost or duplicated. -/
theorem blockOf_spec (s : PreItSt) (l : String) (t : List String)
    (h : s.toLines = l :: t) :
    (blockOf s).1 = l :: t.takeWhile indentedB ∧
    (blockOf s).2.toLines = t.dropWhile indentedB ∧
    (blockOf s).1 ++ (blockOf s).2.toLines = s.toLines := by
  obtain ⟨pre, rest⟩ := s
  cases pre with
  | nil =>
    simp only [PreItSt.toLines, List.nil_append] at h
    subst h
    have a : (blockOf ⟨[], l :: t⟩).1 = l :: t.takeWhile indentedB := by
      simp [blockOf, (takeIndentedRest_spec t).1]
    have b : (blockOf ⟨[], l :: t⟩).2.toLines = t.dropWhile indentedB := by
      simp [blockOf, (takeIndentedRest_spec t).2]
    refine ⟨a, b, ?_⟩
    rw [a, b]
    simp [PreItSt.toLines, List.takeWhile_append_dropWhile]
  | cons p ps =>
    simp only [PreItSt.toLines, List.cons_append, List.cons.injEq] at h
    obtain ⟨hl, ht⟩ := h
    subst hl
    subst ht
    have a : (blockOf ⟨p :: ps, rest⟩).1 = p :: (ps ++ rest).takeWhile indentedB := by
      simp [blockOf, (takeIndentedPre_spec ps rest).1]
    have b : (blockOf ⟨p :: ps, rest⟩).2.toLines = (ps ++ rest).dropWhile indentedB := by
      simp [blockOf, (takeIndentedPre_spec ps rest).2]
    refine ⟨a, b, ?_⟩
    rw [a, b]
    simp [PreItSt.toLines, List.takeWhile_append_dropWhile]

theorem blockOf_spec_witness :
    (⟨["x\n"], ["  y\n", "z\n"]⟩ : PreItSt).toLines = "x\n" :: ["  y\n", "z\n"] ∧
    ((blockOf ⟨["x\n"], ["  y\n", "z\n"]⟩).1 = "x\n" :: ["  y\n", "z\n"].takeWhile indentedB ∧
     (blockOf ⟨["x\n"], ["  y\n", "z\n"]⟩).2.toLines = ["  y\n", "z\n"].dropWhile indentedB ∧
     (blockOf ⟨["x\n"], ["  y\n", "z\n"]⟩).1 ++ (blockOf ⟨["x\n"], ["  y\n", "z\n"]⟩).2.toLines =
       (⟨["x\n"], ["  y\n", "z\n"]⟩ : PreItSt).toLines) :=
  ⟨rfl, blockOf_spec ⟨["x\n"], ["  y\n", "z\n"]⟩ "x\n" ["  y\n", "z\n"] rfl⟩

/-- Claim C6 counterexample: on a Video line whose tail carries `15 tbr`
before `14 fps`, the parsed frame rate is 15, the value of the first
matching field — not 14, the value decorated `fps` that the claim says is
preferred; the second conjunct shows the `fps`-decorated field does match
the pattern with value 14, so only the scan order decides. -/
theorem fps_prefers_first_not_fps :
    streamParse exVocab "  Stream #0:0: Video: h264, yuv420p, 4x4, 15 tbr, 14 fps\n" =
      .ok (some (.video "0:0" ⟨some "h264", some "yuv420p", 4, 4, some 15⟩)) ∧
    fpsMat " 14 fps" = some 14 :=
  ⟨rfl, rfl⟩

/-- Claim C6 (amended): the attr scan takes the first field (in scan order,
starting after the geometry match) that matches `<number> fps` or
`<number> tbr`, with no preference for `fps` — the scan equals the list's
first `fpsMat` success, and in particular is `none` when no field matches;
the concrete conjuncts show both field orders through `VideoStream`'s
attr pipeline. -/
theorem fps_first_match :
    (∀ fields : List String, (scanOne fpsMat fields).1 = fields.findSome? fpsMat) ∧
    videoOfInfo exVocab (fieldsOf "h264, yuv420p, 4x4, 15 fps, 16 tbr") =
      .ok ⟨some "h264", some "yuv420p", 4, 4, some 15⟩ ∧
    videoOfInfo exVocab (fieldsOf "h264, yuv420p, 4x4, 16 tbr, 15 fps") =
      .ok ⟨some "h264", some "yuv420p", 4, 4, some 16⟩ :=
  ⟨scanOne_fst fpsMat, rfl, rfl⟩

/-- Claim C7 counterexample: a Video line whose only geometry-shaped field
is `0x0` — so the tail contains no geometry field with positive integers —
is parsed into a record with width and height 0 instead of failing: the
shape pattern is `\d+x\d+`, which does not require positive integers. -/
theorem zero_geometry_video_ok :
    streamParse exVocab "  Stream #0:0: Video: h264, yuv420p, 0x0\n" =
      .ok (some (.video "0:0" ⟨some "h264", some "yuv420p", 0, 0, none⟩)) :=
  rfl

/-- Claim C7 (amended): geometry in the `\d+x\d+` sense (zero allowed) is
the one required Video field: when no field matches the shape pattern the
Video constructor fails with the `AttributeError` of `None.split`, and
conversely a successful parse implies some field matched the shape
pattern. -/
theorem video_requires_geometry (v : Vocab) (fields : List String) :
    (fields.all (fun f => (shapeMat f).isNone) = true →
      videoOfInfo v fields = .error .attributeError) ∧
    (∀ vr : VideoRec, videoOfInfo v fields = .ok vr →
      ∃ f, f ∈ fields ∧ (shapeMat f).isSome = true) := by
  constructor
  · intro hall
    have h1 := scanOne_rest_all (vocabMat v.codecs) (fun f => (shapeMat f).isNone) fields hall
    have h2 := scanOne_rest_all (vocabMat v.pixfmts) (fun f => (shapeMat f).isNone) _ h1
    have h3 := scanOne_none_of_all shapeMat _ h2
    rw [videoOfInfo, h3]
  · intro vr hok
    rw [videoOfInfo] at hok
    cases hsh : (scanOne shapeMat
        (scanOne (vocabMat v.pixfmts) (scanOne (vocabMat v.codecs) fields).2).2).1 with
    | none => rw [hsh] at hok; exact absurd hok (by simp)
    | some wh =>
      obtain ⟨f, hf, hs⟩ := scanOne_some_mem shapeMat _ wh hsh
      exact ⟨f, scanOne_rest_subset (vocabMat v.codecs) fields f
        (scanOne_rest_subset (vocabMat v.pixfmts) _ f hf), hs⟩

theorem video_requires_geometry_witness :
    (["h264,"].all (fun f => (shapeMat f).isNone) = true ∧
     videoOfInfo exVocab ["h264,"] = .error .attributeError) ∧
    (videoOfInfo exVocab ["h264,", " yuv420p,", " 4x4"] = .ok ⟨some "h264", some "yuv420p", 4, 4, none⟩ ∧
     ∃ f, f ∈ ["h264,", " yuv420p,", " 4x4"] ∧ (shapeMat f).isSome = true) :=
  ⟨⟨rfl, (video_requires_geometry exVocab ["h264,"]).1 rfl⟩,
   ⟨rfl, (video_requires_geometry exVocab ["h264,", " yuv420p,", " 4x4"]).2
           ⟨some "h264", some "yuv420p", 4, 4, none⟩ rfl⟩⟩

/-- Claim C8: the named fast paths of the layout resolver on the spec's
examples: `bgr24` at 4x3 gives shape `(3, 4, 3)` with 1-byte elements, 36
bytes in total; `yuv420p` at 4x2 gives shape `(3, 4)` (height * 1.5 rows by
width columns) with 1-byte elements, 12 bytes in total. -/
theorem frameinfo_fastpath_examples :
    frameinfo ⟨"bgr24", 3, 24⟩ 4 3 = .ok ([3, 4, 3], .u8) ∧
    elemBytes .u8 = 1 ∧ bufferBytes [3, 4, 3] .u8 = 36 ∧
    frameinfo ⟨"yuv420p", 3, 12⟩ 4 2 = .ok ([3, 4], .u8) ∧
    bufferBytes [3, 4] .u8 = 12 :=
  ⟨rfl, rfl, rfl, rfl, rfl⟩

/-- Claim C9 counterexample: two descriptors whose bit budget is 0 and thus
divisible by 8 — so the claim demands a flat 0-byte buffer — make the
resolver crash with `ZeroDivisionError` instead: a 0-component descriptor
(as ffmpeg lists for hardware formats) crashes at `bppx % nchan`, and a
zero (even) height crashes at `totalbits % npix`. -/
theorem frameinfo_zero_crashes :
    frameinfo ⟨"vdpau", 0, 0⟩ 1 1 = .error .zeroDivisionError ∧
    (0 * 1 * 1) % 8 = 0 ∧
    frameinfo ⟨"foo", 3, 5⟩ 1 0 = .error .zeroDivisionError ∧
    (5 * 0 * 1) % 8 = 0 :=
  ⟨rfl, rfl, rfl, rfl⟩

/-- Claim C9 (amended): for a descriptor with at least one component and
positive geometry, when no named fast path, no per-component branch, no
even-height spread and no packed 16-bit 3-component branch applies, the
resolver returns a flat byte buffer of `bitsPerPixel * width * height / 8`
bytes when the bit budget is divisible by 8 and fails with the
unsupported-pixel-format `ValueError` exactly otherwise. -/
theorem frameinfo_generic_fallback (f : PixFmt) (w ht : Nat)
    (h1 : fastShape f.name w ht = none)
    (h2 : 0 < f.nbComponents)
    (h3 : structuredOf f w ht = none)
    (h4 : 0 < w) (h5 : 0 < ht)
    (h6 : ht % 2 = 0 → spreadOf f w ht = none)
    (h7 : ¬ (f.nbComponents = 3 ∧ f.bitsPerPixel = 16 ∧ hasBayer f.name = false)) :
    frameinfo f w ht =
      if (f.bitsPerPixel * ht * w) % 8 = 0
      then .ok ([(f.bitsPerPixel * ht * w) / 8], .u8)
      else .error .valueError := by
  rw [frameinfo, h1, if_neg (Nat.pos_iff_ne_zero.mp h2), h3]
  have hnpix : (ht + ht / 2) * w ≠ 0 :=
    Nat.mul_ne_zero (by omega) (Nat.pos_iff_ne_zero.mp h4)
  by_cases hht : ht % 2 = 0
  · rw [if_pos hht, if_neg hnpix, h6 hht, if_neg h7]
  · rw [if_neg hht, if_neg h7]

theorem frameinfo_generic_fallback_witness :
    (fastShape "foo" 8 3 = none ∧ 0 < 3 ∧ structuredOf ⟨"foo", 3, 5⟩ 8 3 = none ∧
     (0 : Nat) < 8 ∧ (0 : Nat) < 3 ∧
     ¬ ((3 : Nat) = 3 ∧ (5 : Nat) = 16 ∧ hasBayer "foo" = false)) ∧
    frameinfo ⟨"foo", 3, 5⟩ 8 3 = .ok ([15], .u8) :=
  ⟨⟨rfl, by decide, rfl, by decide, by decide, by decide⟩,
   frameinfo_generic_fallback ⟨"foo", 3, 5⟩ 8 3 rfl (by decide) rfl (by decide) (by decide)
     (fun hmod => by decide) (by decide)⟩

/-- Claim C10: within a Stream-mapping block (header ending in
`Stream mapping:`), a line the mapping pattern does not match — such as an
interactive overwrite prompt — is silently skipped wherever it is inserted,
and the result is exactly the ordered list of (input id, output id) pairs
of the matching lines; the pattern itself ends at the output id, so the
parenthesised codec-transition text is ignored (see `mapLineMat` and the
witness, whose mapping line carries a nested arrow inside the
parentheses). -/
theorem smParse_skips_and_collects (hd noise : String) (pre post : List String)
    (hh : smHeader hd = true) (hn : mapLineMat noise = none) :
    smParse hd (pre ++ noise :: post) = smParse hd (pre ++ post) ∧
    smParse hd (pre ++ post) = some ((pre ++ post).filterMap mapLineMat) := by
  rw [smParse, smParse, if_pos hh, if_pos hh]
  constructor
  · rw [List.filterMap_append, List.filterMap_append, List.filterMap_cons, hn]
  · rfl

theorem smParse_skips_and_collects_witness :
    smHeader "Stream mapping:\n" = true ∧
    mapLineMat "File exists. Overwrite? [y/N] y\n" = none ∧
    (smParse "Stream mapping:\n"
        (["  Stream #0:0 -> #0:0 (h264 (native) -> rawvideo (native))\n"] ++
          "File exists. Overwrite? [y/N] y\n" :: []) =
      smParse "Stream mapping:\n"
        (["  Stream #0:0 -> #0:0 (h264 (native) -> rawvideo (native))\n"] ++ []) ∧
     smParse "Stream mapping:\n"
        (["  Stream #0:0 -> #0:0 (h264 (native) -> rawvideo (native))\n"] ++ []) =
      some ((["  Stream #0:0 -> #0:0 (h264 (native) -> rawvideo (native))\n"] ++
        []).filterMap mapLineMat)) :=
  ⟨rfl, rfl, smParse_skips_and_collects "Stream mapping:\n"
    "File exists. Overwrite? [y/N] y\n"
    ["  Stream #0:0 -> #0:0 (h264 (native) -> rawvideo (native))\n"] [] rfl rfl⟩
